import Mathlib

/-!
Verification of the Productivity-Ranker server core.

This development shallowly embeds the server-side core of the
productivity-tracking application: the storage accessors (user, entry,
daily-score, weekly-score and chat-message tables backed by Postgres),
the Monday–Sunday week-bounds calculator, the daily-scoring flow
(including the JSON extraction applied to the text-generation response),
the entry-deletion flow, the chat-context assembly, and the
authentication responses.

Modelling conventions:
* Calendar dates are represented as integer day indices since the Unix
  epoch under a UTC server clock (day 0 = 1970-01-01, a Thursday).
  JavaScript `Date` arithmetic at day granularity (`setDate` rollover,
  `getDay`, `toISOString().split("T")[0]`) is exactly day-index
  arithmetic under this representation, and ISO date-string comparison
  agrees with integer comparison of day indices.
* JavaScript numbers are modelled as exact rationals.
* Database tables are lists of rows; `INSERT` appends, `UPDATE ... WHERE`
  maps over matching rows, `DELETE ... WHERE` filters, and `ORDER BY` is
  an insertion sort on the ordering key.  `serial` columns and
  `CURRENT_TIMESTAMP` defaults are modelled with per-store counters.
* The external collaborators (bcrypt, the zod validators, the OpenAI
  client) are parameters of the flows that use them; `JSON.parse` and
  `Number(...)` are modelled by executable functions below following the
  JSON grammar and the primitive-value coercion rules (exotic JS corner
  cases that no flow in this repository exercises — hex numeric strings,
  `Infinity`, surrogate-pair recombination, single-element-array
  coercion — are modelled as parse failures / non-numbers).
-/

/-! ### List ordering helper (model of SQL `ORDER BY`) -/

/-- Insert an element into a list sorted by the boolean relation `le`
(insertion step of a stable insertion sort). -/
def insByLe (le : α → α → Bool) (x : α) : List α → List α
  | [] => [x]
  | y :: ys => if le x y then x :: y :: ys else y :: insByLe le x ys

/-- Insertion sort by the boolean relation `le`; models `ORDER BY`. -/
def sortByLe (le : α → α → Bool) : List α → List α
  | [] => []
  | x :: xs => insByLe le x (sortByLe le xs)

theorem mem_insByLe (le : α → α → Bool) (x a : α) :
    ∀ l : List α, a ∈ insByLe le x l ↔ a = x ∨ a ∈ l := by
  intro l
  induction l with
  | nil => simp [insByLe]
  | cons y ys ih =>
    simp only [insByLe]
    by_cases h : le x y = true
    · simp [h]
    · simp only [if_neg h, List.mem_cons, ih]
      tauto

theorem mem_sortByLe (le : α → α → Bool) (a : α) :
    ∀ l : List α, a ∈ sortByLe le l ↔ a ∈ l := by
  intro l
  induction l with
  | nil => simp [sortByLe]
  | cons x xs ih => simp [sortByLe, mem_insByLe, ih]

theorem length_insByLe (le : α → α → Bool) (x : α) :
    ∀ l : List α, (insByLe le x l).length = l.length + 1 := by
  intro l
  induction l with
  | nil => simp [insByLe]
  | cons y ys ih =>
    simp only [insByLe]
    by_cases h : le x y = true
    · simp [h]
    · simp [if_neg h, ih]

theorem length_sortByLe (le : α → α → Bool) :
    ∀ l : List α, (sortByLe le l).length = l.length := by
  intro l
  induction l with
  | nil => rfl
  | cons x xs ih => simp [sortByLe, length_insByLe, ih]

theorem sortByLe_eq_nil_iff (le : α → α → Bool) (l : List α) :
    sortByLe le l = [] ↔ l = [] := by
  constructor
  · intro h
    have := length_sortByLe le l
    rw [h] at this
    exact List.length_eq_zero.mp this.symm
  · intro h; subst h; rfl

/-! ### JSON values and the model of `JSON.parse` -/

/-- A JSON value, as produced by `JSON.parse`.  Numbers are exact
rationals (see the header note on JS numbers). -/
inductive JValue where
  | null : JValue
  | bool (b : Bool) : JValue
  | num (q : ℚ) : JValue
  | str (s : String) : JValue
  | arr (elems : List JValue) : JValue
  | obj (members : List (String × JValue)) : JValue

/-- JSON insignificant whitespace. -/
def isJsonWs (c : Char) : Bool :=
  c = ' ' || c = '\n' || c = '\r' || c = '\t'

/-- Drop leading JSON whitespace. -/
def skipWs : List Char → List Char
  | [] => []
  | c :: cs => if isJsonWs c then skipWs cs else c :: cs

/-- Value of a hexadecimal digit. -/
def hexVal (c : Char) : Option Nat :=
  if '0' ≤ c ∧ c ≤ '9' then some (c.toNat - 48)
  else if 'a' ≤ c ∧ c ≤ 'f' then some (c.toNat - 87)
  else if 'A' ≤ c ∧ c ≤ 'F' then some (c.toNat - 55)
  else none

/-- Single-character JSON string escapes. -/
def escChar (c : Char) : Option Char :=
  if c = '"' then some '"'
  else if c = '\\' then some '\\'
  else if c = '/' then some '/'
  else if c = 'b' then some (Char.ofNat 8)
  else if c = 'f' then some (Char.ofNat 12)
  else if c = 'n' then some '\n'
  else if c = 'r' then some '\r'
  else if c = 't' then some '\t'
  else none

/-- Parse the body of a JSON string (after the opening quote), returning
the decoded string and the remaining input. -/
def parseStringBody : Nat → List Char → List Char → Option (String × List Char)
  | 0, _, _ => none
  | _ + 1, [], _ => none
  | f + 1, c :: cs, acc =>
    if c = '"' then some (String.mk acc.reverse, cs)
    else if c = '\\' then
      match cs with
      | [] => none
      | e :: cs2 =>
        if e = 'u' then
          match cs2 with
          | h1 :: h2 :: h3 :: h4 :: cs3 =>
            match hexVal h1, hexVal h2, hexVal h3, hexVal h4 with
            | some a, some b, some c2, some d2 =>
              parseStringBody f cs3 (Char.ofNat (((a * 16 + b) * 16 + c2) * 16 + d2) :: acc)
            | _, _, _, _ => none
          | _ => none
        else
          match escChar e with
          | some ch => parseStringBody f cs2 (ch :: acc)
          | none => none
    else if c.toNat < 32 then none
    else parseStringBody f cs (c :: acc)

/-- Split a leading run of decimal digits off the input. -/
def splitDigits : List Char → List Char × List Char
  | [] => ([], [])
  | c :: cs =>
    if '0' ≤ c ∧ c ≤ '9' then
      let r := splitDigits cs
      (c :: r.1, r.2)
    else ([], c :: cs)

/-- Numeric value of a digit run. -/
def digitsVal (ds : List Char) : Nat :=
  ds.foldl (fun a c => a * 10 + (c.toNat - 48)) 0

/-- `10 ^ k` as a rational. -/
def pow10 (k : Nat) : ℚ := 10 ^ k

/-- Parse an optional JSON fraction part (`.` followed by digits). -/
def parseFrac (cs : List Char) : Option (List Char × List Char) :=
  match cs with
  | '.' :: rest =>
    let p := splitDigits rest
    if p.1 = [] then none else some (p.1, p.2)
  | _ => some ([], cs)

/-- Parse an optional exponent part (`e`/`E`, optional sign, digits). -/
def parseExp (cs : List Char) : Option (Int × List Char) :=
  match cs with
  | [] => some (0, [])
  | c :: rest =>
    if c = 'e' ∨ c = 'E' then
      let p : Bool × List Char :=
        match rest with
        | '+' :: r => (false, r)
        | '-' :: r => (true, r)
        | _ => (false, rest)
      let d := splitDigits p.2
      if d.1 = [] then none
      else some ((if p.1 then -(digitsVal d.1 : Int) else (digitsVal d.1 : Int)), d.2)
    else some (0, c :: rest)

/-- Assemble a rational from sign, integer digits, fraction digits and
a decimal exponent. -/
def assembleNumber (neg : Bool) (ids fds : List Char) (ex : Int) : ℚ :=
  let mNat : Nat := digitsVal ids * 10 ^ fds.length + digitsVal fds
  let mag : ℚ := (mNat : ℚ) / pow10 fds.length
  let mag2 : ℚ := if 0 ≤ ex then mag * pow10 ex.toNat else mag / pow10 (-ex).toNat
  if neg then -mag2 else mag2

/-- Parse a JSON number (strict grammar: optional `-`, integer part with
no leading zeros, optional fraction, optional exponent). -/
def parseNumber (cs : List Char) : Option (ℚ × List Char) :=
  let p : Bool × List Char :=
    match cs with
    | '-' :: rest => (true, rest)
    | _ => (false, cs)
  let ip := splitDigits p.2
  if ip.1 = [] then none
  else if 1 < ip.1.length ∧ ip.1.headD '0' = '0' then none
  else
    match parseFrac ip.2 with
    | none => none
    | some (fds, cs3) =>
      match parseExp cs3 with
      | none => none
      | some (ex, cs4) => some (assembleNumber p.1 ip.1 fds ex, cs4)

mutual

/-- Parse one JSON value from the input (fuel-indexed recursive descent). -/
def parseVal : Nat → List Char → Option (JValue × List Char)
  | 0, _ => none
  | f + 1, cs =>
    match skipWs cs with
    | [] => none
    | c :: rest =>
      if c = '"' then
        match parseStringBody (rest.length + 1) rest [] with
        | some (s, r) => some (JValue.str s, r)
        | none => none
      else if c = '{' then parseObjStart f rest
      else if c = '[' then parseArrStart f rest
      else if c = 't' then
        match rest with
        | 'r' :: 'u' :: 'e' :: r => some (JValue.bool true, r)
        | _ => none
      else if c = 'f' then
        match rest with
        | 'a' :: 'l' :: 's' :: 'e' :: r => some (JValue.bool false, r)
        | _ => none
      else if c = 'n' then
        match rest with
        | 'u' :: 'l' :: 'l' :: r => some (JValue.null, r)
        | _ => none
      else
        match parseNumber (c :: rest) with
        | some (q, r) => some (JValue.num q, r)
        | none => none

/-- Parse an object body right after the opening brace. -/
def parseObjStart : Nat → List Char → Option (JValue × List Char)
  | 0, _ => none
  | f + 1, cs =>
    match skipWs cs with
    | '}' :: rest => some (JValue.obj [], rest)
    | cs2 => parseObjLoop f cs2 []

/-- Parse the members of a non-empty object, accumulating key/value pairs. -/
def parseObjLoop : Nat → List Char → List (String × JValue) → Option (JValue × List Char)
  | 0, _, _ => none
  | f + 1, cs, acc =>
    match cs with
    | '"' :: rest =>
      match parseStringBody (rest.length + 1) rest [] with
      | none => none
      | some (k, r1) =>
        match skipWs r1 with
        | ':' :: r2 =>
          match parseVal f r2 with
          | none => none
          | some (v, r3) =>
            match skipWs r3 with
            | ',' :: r4 => parseObjLoop f (skipWs r4) (acc ++ [(k, v)])
            | '}' :: r4 => some (JValue.obj (acc ++ [(k, v)]), r4)
            | _ => none
        | _ => none
    | _ => none

/-- Parse an array body right after the opening bracket. -/
def parseArrStart : Nat → List Char → Option (JValue × List Char)
  | 0, _ => none
  | f + 1, cs =>
    match skipWs cs with
    | ']' :: rest => some (JValue.arr [], rest)
    | cs2 => parseArrLoop f cs2 []

/-- Parse the elements of a non-empty array. -/
def parseArrLoop : Nat → List Char → List JValue → Option (JValue × List Char)
  | 0, _, _ => none
  | f + 1, cs, acc =>
    match parseVal f cs with
    | none => none
    | some (v, r1) =>
      match skipWs r1 with
      | ',' :: r2 => parseArrLoop f r2 (acc ++ [v])
      | ']' :: r2 => some (JValue.arr (acc ++ [v]), r2)
      | _ => none

end

/-- Model of `JSON.parse`: parse one value, require only whitespace to
remain, fail otherwise.  The fuel `3 * length + 16` dominates the number
of recursive-descent steps on any input of that length. -/
def jsonParse (s : String) : Option JValue :=
  match parseVal (3 * s.length + 16) s.toList with
  | some (v, rest) => if skipWs rest = [] then some v else none
  | none => none

/-! ### JS primitive coercions used by the scoring route -/

/-- Model of `Number(s)` on strings: optional sign, decimal digits with
optional fraction and exponent, surrounded by whitespace; the empty
string converts to `0`; anything else (including the hex and `Infinity`
forms, which no flow here produces) is `NaN`, i.e. `none`. -/
def strToNumber (s : String) : Option ℚ :=
  match skipWs s.toList with
  | [] => some 0
  | cs =>
    let p : Bool × List Char :=
      match cs with
      | '-' :: r => (true, r)
      | '+' :: r => (false, r)
      | _ => (false, cs)
    let ip := splitDigits p.2
    let fp : List Char × List Char :=
      match ip.2 with
      | '.' :: r => splitDigits r
      | _ => ([], ip.2)
    if ip.1 = [] ∧ fp.1 = [] then none
    else
      match parseExp fp.2 with
      | none => none
      | some (ex, cs4) =>
        if skipWs cs4 = [] then some (assembleNumber p.1 ip.1 fp.1 ex) else none

/-- Model of `Number(x)` on the result of a property access:
`none` is JS `undefined` (missing property) and converts to `NaN`;
`null`, booleans and numbers convert by the primitive rules; strings go
through `strToNumber`; arrays and objects are modelled as `NaN` (the
JS single-element-array corner case is not exercised by this code). -/
def jsToNumber : Option JValue → Option ℚ
  | none => none
  | some JValue.null => some 0
  | some (JValue.bool b) => some (if b then 1 else 0)
  | some (JValue.num q) => some q
  | some (JValue.str s) => strToNumber s
  | some (JValue.arr _) => none
  | some (JValue.obj _) => none

/-- JS truthiness of a parsed JSON value. -/
def jTruthy : JValue → Bool
  | JValue.null => false
  | JValue.bool b => b
  | JValue.num q => !(q == 0)
  | JValue.str s => !(s == "")
  | JValue.arr _ => true
  | JValue.obj _ => true

/-- JS string coercion of a parsed JSON value, for the primitive cases
(the only ones the scoring route's insight handling can meet). -/
def jsToString : JValue → String
  | JValue.str s => s
  | JValue.null => "null"
  | JValue.bool true => "true"
  | JValue.bool false => "false"
  | JValue.num q => toString q
  | JValue.arr _ => ""
  | JValue.obj _ => ""

/-- Last binding of key `k` in an object member list (a later duplicate
key overwrites an earlier one in a JS object literal / `JSON.parse`). -/
def jLookupLast (kvs : List (String × JValue)) (k : String) : Option JValue :=
  match kvs with
  | [] => none
  | kv :: rest =>
    match jLookupLast rest k with
    | some v => some v
    | none => if kv.1 = k then some kv.2 else none

/-- Property access `v.k` on a parsed JSON value (`undefined` = `none`
for non-objects and missing keys). -/
def jGet : JValue → String → Option JValue
  | JValue.obj kvs, k => jLookupLast kvs k
  | _, _ => none

/-! ### The scoring route's response-content extraction -/

/-- Index of the first occurrence of `c`. -/
def idxOfChar (c : Char) : List Char → Option Nat
  | [] => none
  | x :: xs => if x = c then some 0 else (idxOfChar c xs).map (· + 1)

/-- Index of the last occurrence of `c`. -/
def lastIdxOfChar (c : Char) (l : List Char) : Option Nat :=
  (idxOfChar c l.reverse).map (fun i => l.length - 1 - i)

/-- Model of `content.match(/\x7b[\s\S]*\x7d/)`: the greedy regex matches
from the first opening brace to the last closing brace (leftmost-longest),
provided some closing brace follows the first opening brace. -/
def extractSpan (s : String) : Option String :=
  let cs := s.toList
  match idxOfChar '{' cs, lastIdxOfChar '}' cs with
  | some i, some j => if i < j then some (String.mk ((cs.drop i).take (j - i + 1))) else none
  | _, _ => none

/-- The catch-branch fallback object `\x7bscore: 50, insight: content\x7d`. -/
def fallbackParsed (content : String) : JValue :=
  JValue.obj [("score", JValue.num 50), ("insight", JValue.str content)]

/-- The parse target `jsonMatch ? jsonMatch[0] : content`. -/
def spanTarget (content : String) : String :=
  match extractSpan content with
  | some m => m
  | none => content

/-- The route's `parsed` value: `JSON.parse(jsonMatch ? jsonMatch[0]
: content)`, with the catch branch substituting the fallback object. -/
def parsePipeline (content : String) : JValue :=
  match jsonParse (spanTarget content) with
  | some v => v
  | none => fallbackParsed content

/-- Default insight used when `parsed.insight` is falsy. -/
def defaultInsight : String := "Keep pushing your productivity!"

/-- The route's persisted score:
`Math.min(100, Math.max(0, Number(parsed.score) || 50))`.
Note `|| 50` replaces a falsy converted score — `NaN` or `0` — by 50
before clamping. -/
def scoreFromParsed (p : JValue) : ℚ :=
  let n : ℚ :=
    match jsToNumber (jGet p "score") with
    | some q => if q = 0 then 50 else q
    | none => 50
  min 100 (max 0 n)

/-- The route's persisted insight: `parsed.insight || "Keep pushing your
productivity!"`. -/
def insightFromParsed (p : JValue) : String :=
  match jGet p "insight" with
  | some j => if jTruthy j then jsToString j else defaultInsight
  | none => defaultInsight

/-! ### Data model (`@shared/schema`) and the store -/

/-- A row of the `users` table. -/
structure UserRow where
  id : Nat
  username : String
  email : String
  password : String
  fullName : String
  occupation : String
  goals : String
  createdAt : Nat
deriving DecidableEq

/-- A row of the `productivity_entries` table. -/
structure EntryRow where
  id : Nat
  userId : Nat
  title : String
  category : String
  duration : Int
  completed : Bool
  notes : Option String
  date : Int
  createdAt : Nat
deriving DecidableEq

/-- A row of the `daily_scores` table (the serial id and timestamp
columns, which no flow reads, are elided). -/
structure DailyScoreRow where
  userId : Nat
  date : Int
  score : ℚ
  aiInsight : String
deriving DecidableEq

/-- A row of the `weekly_scores` table (serial id and timestamp elided). -/
structure WeeklyScoreRow where
  userId : Nat
  weekStart : Int
  weekEnd : Int
  avgScore : ℚ
  totalEntries : Nat
deriving DecidableEq

/-- A row of the `chat_messages` table (serial id elided; `createdAt`
carries the creation order used by `ORDER BY created_at`). -/
structure ChatMessageRow where
  userId : Nat
  role : String
  content : String
  createdAt : Nat
deriving DecidableEq

/-- The relational store: five tables plus the serial/timestamp counters. -/
structure Store where
  users : List UserRow
  entries : List EntryRow
  dailyScores : List DailyScoreRow
  weeklyScores : List WeeklyScoreRow
  chatMessages : List ChatMessageRow
  nextUserId : Nat
  nextEntryId : Nat
  clock : Nat
deriving DecidableEq

/-! ### Storage accessors (`storage.ts`) -/

/-- `getUserByUsername`: first row matching the username. -/
def getUserByUsername (st : Store) (un : String) : Option UserRow :=
  (st.users.filter (fun u => u.username == un)).head?

/-- `getUserById`: first row matching the id. -/
def getUserById (st : Store) (uid : Nat) : Option UserRow :=
  (st.users.filter (fun u => u.id == uid)).head?

/-- `createUser`: hash the password, insert, return the created row. -/
def createUser (hash : String → String) (st : Store) (username email password fullName occupation goals : String) :
    UserRow × Store :=
  let u : UserRow :=
    ⟨st.nextUserId, username, email, hash password, fullName, occupation, goals, st.clock⟩
  (u, { st with
          users := st.users ++ [u]
          nextUserId := st.nextUserId + 1
          clock := st.clock + 1 })

/-- `getEntriesByDate`: the user's entries on a date, newest first. -/
def getEntriesByDate (st : Store) (uid : Nat) (d : Int) : List EntryRow :=
  sortByLe (fun a b => decide (b.createdAt ≤ a.createdAt))
    (st.entries.filter (fun e => e.userId == uid && e.date == d))

/-- `getEntriesByDateRange`: the user's entries in an inclusive date
range, newest first. -/
def getEntriesByDateRange (st : Store) (uid : Nat) (startDate endDate : Int) : List EntryRow :=
  sortByLe (fun a b => decide (b.createdAt ≤ a.createdAt))
    (st.entries.filter (fun e =>
      e.userId == uid && decide (startDate ≤ e.date) && decide (e.date ≤ endDate)))

/-- `deleteEntry`: delete rows matching both the entry id and the
requesting user; report whether any row was deleted. -/
def deleteEntry (st : Store) (id uid : Nat) : Bool × Store :=
  let matching := st.entries.filter (fun e => e.id == id && e.userId == uid)
  let rest := st.entries.filter (fun e => !(e.id == id && e.userId == uid))
  (decide (0 < matching.length), { st with entries := rest })

/-- `saveDailyScore`: update the `(user, date)` row if one exists,
otherwise insert a new row. -/
def saveDailyScore (st : Store) (uid : Nat) (d : Int) (score : ℚ) (aiInsight : String) : Store :=
  if 0 < (st.dailyScores.filter (fun r => r.userId == uid && r.date == d)).length then
    { st with
        dailyScores := st.dailyScores.map (fun r =>
          if r.userId == uid && r.date == d then { r with score := score, aiInsight := aiInsight } else r) }
  else
    { st with dailyScores := st.dailyScores ++ [⟨uid, d, score, aiInsight⟩] }

/-- `getDailyScores`: the user's daily scores in an inclusive date range,
most recent date first. -/
def getDailyScores (st : Store) (uid : Nat) (startDate endDate : Int) : List DailyScoreRow :=
  sortByLe (fun a b => decide (b.date ≤ a.date))
    (st.dailyScores.filter (fun r =>
      r.userId == uid && decide (startDate ≤ r.date) && decide (r.date ≤ endDate)))

/-- `saveWeeklyScore`: update the `(user, weekStart)` row if one exists —
setting only `avgScore` and `totalEntries` — otherwise insert a new row
carrying the given `weekEnd`. -/
def saveWeeklyScore (st : Store) (uid : Nat) (weekStart weekEnd : Int) (avgScore : ℚ) (totalEntries : Nat) : Store :=
  if 0 < (st.weeklyScores.filter (fun r => r.userId == uid && r.weekStart == weekStart)).length then
    { st with
        weeklyScores := st.weeklyScores.map (fun r =>
          if r.userId == uid && r.weekStart == weekStart then
            { r with avgScore := avgScore, totalEntries := totalEntries }
          else r) }
  else
    { st with weeklyScores := st.weeklyScores ++ [⟨uid, weekStart, weekEnd, avgScore, totalEntries⟩] }

/-- `getChatMessages`: the user's chat messages ordered by creation time. -/
def getChatMessages (st : Store) (uid : Nat) : List ChatMessageRow :=
  sortByLe (fun a b => decide (a.createdAt ≤ b.createdAt))
    (st.chatMessages.filter (fun m => m.userId == uid))

/-- `saveChatMessage`: append a message for the user. -/
def saveChatMessage (st : Store) (uid : Nat) (role content : String) : Store :=
  { st with
      chatMessages := st.chatMessages ++ [⟨uid, role, content, st.clock⟩]
      clock := st.clock + 1 }

/-- `clearChatMessages`: delete all of the user's messages. -/
def clearChatMessages (st : Store) (uid : Nat) : Store :=
  { st with chatMessages := st.chatMessages.filter (fun m => !(m.userId == uid)) }

/-! ### Week-bounds calculator (`getWeekBounds` in `routes.ts`) -/

/-- JS `Date.prototype.getDay` on a day index: 0 = Sunday … 6 = Saturday
(day 0, 1970-01-01, was a Thursday, i.e. 4). -/
def dayOfWeek (n : Int) : Int := (n + 4) % 7

/-- `getWeekBounds`: `diff = getDate() - day + (day === 0 ? -6 : 1)`,
`monday = setDate(diff)`, `sunday = monday + 6 days`.  At day-index
granularity `setDate(diff)` adds `diff - getDate()` days, so the Monday
is `n - day + (day = 0 ? -6 : 1)`. -/
def getWeekBounds (n : Int) : Int × Int :=
  let day := dayOfWeek n
  let monday := n - day + (if day = 0 then -6 else 1)
  (monday, monday + 6)

/-! ### Scoring route (`POST /api/score/daily`) -/

/-- The content fallback when the model reply has no content (the
`|| default` on `response.choices[0]?.message?.content`). -/
def defaultAIContent : String := "\x7b\"score\": 50, \"insight\": \"Keep going!\"\x7d"

/-- Fixed message returned when the user has no entries on the date. -/
def noEntriesInsight : String :=
  "No activities logged today. Start tracking to get your productivity score!"

/-- `Math.round` (round half toward positive infinity). -/
def jsRound (q : ℚ) : ℤ := (q + 1/2).floor

/-- `Math.round(avg * 10) / 10`: round to one decimal place. -/
def round1 (q : ℚ) : ℚ := (jsRound (q * 10) : ℚ) / 10

/-- `weekScores.reduce((sum, s) => sum + s.score, 0)`. -/
def sumScores (l : List DailyScoreRow) : ℚ :=
  l.foldl (fun a r => a + r.score) 0

/-- The reply content after the `|| default` guard on
`response.choices[0]?.message?.content` (null/undefined and the empty
string both fall back to the fixed default JSON). -/
def contentOf (ai : Option String) : String :=
  match ai with
  | some s => if s = "" then defaultAIContent else s
  | none => defaultAIContent

/-- The persistence tail of the scoring route (lines after the insight
extraction): upsert the daily score, then re-read the daily scores of
the enclosing Monday–Sunday window and upsert the weekly aggregate with
their mean rounded to one decimal and their count. -/
def persistScores (st : Store) (uid : Nat) (date : Int) (score : ℚ) (insight : String) : Store :=
  let st1 := saveDailyScore st uid date score insight
  let b := getWeekBounds date
  let weekScores := getDailyScores st1 uid b.1 b.2
  if 0 < weekScores.length then
    saveWeeklyScore st1 uid b.1 b.2
      (round1 (sumScores weekScores / (weekScores.length : ℚ))) weekScores.length
  else st1

/-- Response of the scoring route: a JSON body with a score, an insight
and (on the full path) the date, or an error status. -/
inductive ScoreResp where
  | ok (score : ℚ) (insight : String) (date : Option Int) : ScoreResp
  | err (status : Nat) (message : String) : ScoreResp
deriving DecidableEq

/-- Outcome of the scoring route: the response, the resulting store and
whether the external generation call was made. -/
structure ScoreFlowOut where
  resp : ScoreResp
  store : Store
  aiCalled : Bool
deriving DecidableEq

/-- The `POST /api/score/daily` handler.  `dateReq` is the optional
request date (`req.body.date || today`); `aiResult` is the outcome of
the external generation call — `none` if the call throws, otherwise the
optional message content.  The handler: reads the day's entries,
short-circuits when there are none, otherwise extracts score and insight
from the reply content, upserts the daily score, and recomputes and
upserts the weekly aggregate over the enclosing Monday–Sunday window. -/
def scoreDailyFlow (st : Store) (uid : Nat) (dateReq : Option Int) (today : Int)
    (aiResult : Option (Option String)) : ScoreFlowOut :=
  let date := dateReq.getD today
  let entries := getEntriesByDate st uid date
  if entries.isEmpty then
    ⟨ScoreResp.ok 0 noEntriesInsight none, st, false⟩
  else
    match aiResult with
    | none => ⟨ScoreResp.err 500 "Failed to generate score", st, true⟩
    | some c =>
      let parsed := parsePipeline (contentOf c)
      let score := scoreFromParsed parsed
      let insight := insightFromParsed parsed
      let st2 := persistScores st uid date score insight
      ⟨ScoreResp.ok score insight (some date), st2, true⟩

/-! ### Entry deletion route (`DELETE /api/entries/:id`) -/

/-- Response of the deletion route. -/
inductive DeleteResp where
  | deleted : DeleteResp
  | notFound (message : String) : DeleteResp
deriving DecidableEq

/-- The `DELETE /api/entries/:id` handler: delete by (id, owner); a
non-deleting call reports 404 "Entry not found". -/
def deleteEntryFlow (st : Store) (uid : Nat) (id : Nat) : DeleteResp × Store :=
  let r := deleteEntry st id uid
  if r.1 then (DeleteResp.deleted, r.2) else (DeleteResp.notFound "Entry not found", r.2)

/-! ### Chat route (`POST /api/chat`) -/

/-- One message of the generation context. -/
structure ChatMsg where
  role : String
  content : String
deriving DecidableEq

/-- `"\n"`-style join used by the route summaries. -/
def joinWith (sep : String) : List String → String
  | [] => ""
  | x :: xs => xs.foldl (fun a s => a ++ sep ++ s) x

/-- One line of the chat system prompt's activity summary. -/
def chatEntryLine (e : EntryRow) : String :=
  toString e.date ++ ": " ++ e.title ++ " (" ++ e.category ++ ", " ++
    toString e.duration ++ "min, " ++ (if e.completed then "done" else "pending") ++ ")"

/-- The chat system prompt's activity summary: up to 20 of the most
recent entries of the current week, or a fixed placeholder. -/
def entriesSummaryOf (recentEntries : List EntryRow) : String :=
  if 0 < recentEntries.length then
    joinWith "\n" ((recentEntries.take 20).map chatEntryLine)
  else "No recent activities logged."

/-- The chat system prompt's score summary. -/
def scoresSummaryOf (recentScores : List DailyScoreRow) : String :=
  if 0 < recentScores.length then
    joinWith ", " (recentScores.map (fun s => toString s.date ++ ": Score " ++ toString s.score ++ "/100"))
  else "No scores yet."

/-- Interpolation of a possibly-missing user field (JS renders
`undefined` into a template literal as the string "undefined"). -/
def userField (u : Option UserRow) (f : UserRow → String) : String :=
  match u with
  | some r => f r
  | none => "undefined"

/-- The chat system prompt: coaching instructions embedding the user's
profile and the weekly activity/score summaries. -/
def chatSystemPrompt (u : Option UserRow) (entriesSummary scoresSummary : String) : String :=
  "You are an expert productivity coach. You help users maximize their productivity with actionable, personalized advice.\n\n" ++
  "User Profile:\n- Name: " ++ userField u (fun r => r.fullName) ++
  "\n- Occupation: " ++ userField u (fun r => r.occupation) ++
  "\n- Goals: " ++ userField u (fun r => r.goals) ++
  "\n\nRecent Activities This Week:\n" ++ entriesSummary ++
  "\n\nRecent Scores: " ++ scoresSummary ++
  "\n\nGuidelines:\n- Be encouraging but honest\n- Give specific, actionable advice\n- Reference their actual activities and scores when relevant\n- Keep responses concise (2-4 sentences unless they ask for detailed plans)\n- Use their name occasionally for a personal touch"

/-- Response of the chat route. -/
inductive ChatResp where
  | badRequest (message : String) : ChatResp
  | streamOk (events : List String) : ChatResp
  | streamErr (events : List String) : ChatResp
deriving DecidableEq

/-- Outcome of the chat route: response, resulting store, the generation
context that was (or would have been) sent, and whether the external
streaming call was made. -/
structure ChatFlowOut where
  resp : ChatResp
  store : Store
  context : List ChatMsg
  aiCalled : Bool
deriving DecidableEq

/-- The `POST /api/chat` handler.  `body` is the optional message
(`!message` also rejects the empty string); `aiStream` is the outcome of
the streaming call — `none` if it throws mid-stream, otherwise the list
of content fragments.  The handler: reads the prior history, persists
the user message, builds the context (system prompt, last 20 prior
turns, new message), streams, and persists the accumulated reply. -/
def chatFlow (st : Store) (uid : Nat) (body : Option String) (today : Int)
    (aiStream : Option (List String)) : ChatFlowOut :=
  match body with
  | none => ⟨ChatResp.badRequest "Message is required", st, [], false⟩
  | some message =>
    if message = "" then ⟨ChatResp.badRequest "Message is required", st, [], false⟩
    else
      let chatHistory := getChatMessages st uid
      let st1 := saveChatMessage st uid "user" message
      let b := getWeekBounds today
      let recentEntries := getEntriesByDateRange st1 uid b.1 b.2
      let recentScores := getDailyScores st1 uid b.1 b.2
      let sys := chatSystemPrompt (getUserById st uid)
        (entriesSummaryOf recentEntries) (scoresSummaryOf recentScores)
      let context : List ChatMsg :=
        ⟨"system", sys⟩ ::
          ((chatHistory.drop (chatHistory.length - 20)).map (fun m => ⟨m.role, m.content⟩) ++
            [⟨"user", message⟩])
      match aiStream with
      | none => ⟨ChatResp.streamErr [], st1, context, true⟩
      | some chunks =>
        let fullResponse := chunks.foldl (fun a c => a ++ c) ""
        let st2 := saveChatMessage st1 uid "assistant" fullResponse
        ⟨ChatResp.streamOk (chunks.filter (fun c => !(c == ""))), st2, context, true⟩

/-! ### Authentication routes -/

/-- An HTTP JSON response: status plus a JSON-object body given as a
key/value list. -/
structure HttpResp where
  status : Nat
  body : List (String × JValue)

/-- JSON serialization of a full `users` row. -/
def userJson (u : UserRow) : List (String × JValue) :=
  [("id", JValue.num u.id),
   ("username", JValue.str u.username),
   ("email", JValue.str u.email),
   ("password", JValue.str u.password),
   ("fullName", JValue.str u.fullName),
   ("occupation", JValue.str u.occupation),
   ("goals", JValue.str u.goals),
   ("createdAt", JValue.num u.createdAt)]

/-- `const \x7b password, ...safeUser \x7d = user`: every own property of the
row except `password`. -/
def safeUserJson (u : UserRow) : List (String × JValue) :=
  (userJson u).filter (fun kv => kv.1 != "password")

/-- The `POST /api/auth/register` handler.  `body` is the outcome of the
external zod validation (`none` = invalid payload); the duplicate-email
database constraint and its catch-branch translation are modelled by the
explicit email check. -/
def registerFlow (hash : String → String) (st : Store)
    (body : Option (String × String × String × String × String × String)) : HttpResp × Store :=
  match body with
  | none => (⟨400, [("message", JValue.str "Invalid input"), ("errors", JValue.obj [])]⟩, st)
  | some (username, email, password, fullName, occupation, goals) =>
    match getUserByUsername st username with
    | some _ => (⟨409, [("message", JValue.str "Username already taken")]⟩, st)
    | none =>
      if st.users.any (fun u => u.email == email) then
        (⟨409, [("message", JValue.str "Email already in use")]⟩, st)
      else
        let r := createUser hash st username email password fullName occupation goals
        (⟨201, safeUserJson r.1⟩, r.2)

/-- The `POST /api/auth/login` handler.  `check` is the external
`bcrypt.compare`; `body` is the outcome of the zod validation. -/
def loginFlow (check : String → String → Bool) (st : Store)
    (body : Option (String × String)) : HttpResp :=
  match body with
  | none => ⟨400, [("message", JValue.str "Invalid input")]⟩
  | some (username, password) =>
    match getUserByUsername st username with
    | none => ⟨401, [("message", JValue.str "Invalid credentials")]⟩
    | some u =>
      if check password u.password then ⟨200, safeUserJson u⟩
      else ⟨401, [("message", JValue.str "Invalid credentials")]⟩

/-- The `GET /api/auth/me` handler.  `sessionUid` is the session's user
id, if any. -/
def meFlow (st : Store) (sessionUid : Option Nat) : HttpResp :=
  match sessionUid with
  | none => ⟨401, [("message", JValue.str "Not authenticated")]⟩
  | some uid =>
    match getUserById st uid with
    | none => ⟨401, [("message", JValue.str "User not found")]⟩
    | some u => ⟨200, safeUserJson u⟩

/-- No key of the response body is the `password` column. -/
def noPasswordKey (r : HttpResp) : Prop :=
  "password" ∉ r.body.map Prod.fst

/-! ### Helper lemmas -/

theorem weekBounds_spec (n : Int) :
    dayOfWeek (getWeekBounds n).1 = 1 ∧
    (getWeekBounds n).2 = (getWeekBounds n).1 + 6 ∧
    (getWeekBounds n).1 ≤ n ∧ n ≤ (getWeekBounds n).2 ∧
    (dayOfWeek n = 0 → (getWeekBounds n).1 = n - 6) := by
  simp only [getWeekBounds, dayOfWeek]
  split_ifs with h
  · refine ⟨?_, ?_, ?_, ?_, fun _ => ?_⟩ <;> first | trivial | omega
  · refine ⟨?_, ?_, ?_, ?_, fun hh => absurd hh h⟩ <;> first | trivial | omega

theorem saveDailyScore_weeklyScores (st : Store) (uid : Nat) (d : Int) (s : ℚ) (i : String) :
    (saveDailyScore st uid d s i).weeklyScores = st.weeklyScores := by
  unfold saveDailyScore
  split <;> rfl

theorem saveWeeklyScore_dailyScores (st : Store) (uid : Nat) (ws we : Int) (a : ℚ) (n : Nat) :
    (saveWeeklyScore st uid ws we a n).dailyScores = st.dailyScores := by
  unfold saveWeeklyScore
  split <;> rfl

theorem getDailyScores_saveWeeklyScore (st : Store) (uid : Nat) (ws we : Int) (a : ℚ) (n : Nat)
    (uid2 : Nat) (x y : Int) :
    getDailyScores (saveWeeklyScore st uid ws we a n) uid2 x y = getDailyScores st uid2 x y := by
  unfold getDailyScores
  rw [saveWeeklyScore_dailyScores]

theorem mem_getDailyScores (st : Store) (uid : Nat) (a b : Int) (r : DailyScoreRow) :
    r ∈ getDailyScores st uid a b ↔
      r ∈ st.dailyScores ∧ r.userId = uid ∧ a ≤ r.date ∧ r.date ≤ b := by
  unfold getDailyScores
  rw [mem_sortByLe]
  simp [List.mem_filter, and_assoc]

theorem saveDailyScore_key_exists (st : Store) (uid : Nat) (d : Int) (s : ℚ) (i : String) :
    ∃ r ∈ (saveDailyScore st uid d s i).dailyScores,
      r.userId = uid ∧ r.date = d ∧ r.score = s ∧ r.aiInsight = i := by
  unfold saveDailyScore
  split
  · next h =>
    rw [List.length_pos] at h
    obtain ⟨r0, hr0⟩ := List.exists_mem_of_ne_nil _ h
    have hm := List.mem_filter.mp hr0
    refine ⟨{ r0 with score := s, aiInsight := i }, ?_, ?_⟩
    · simp only []
      refine List.mem_map.mpr ⟨r0, hm.1, ?_⟩
      rw [if_pos hm.2]
    · have := hm.2
      simp only [Bool.and_eq_true, beq_iff_eq] at this
      exact ⟨this.1, this.2, rfl, rfl⟩
  · exact ⟨⟨uid, d, s, i⟩, by simp, rfl, rfl, rfl, rfl⟩

theorem saveDailyScore_key_rows (st : Store) (uid : Nat) (d : Int) (s : ℚ) (i : String) :
    ∀ r ∈ (saveDailyScore st uid d s i).dailyScores,
      r.userId = uid → r.date = d → r.score = s ∧ r.aiInsight = i := by
  unfold saveDailyScore
  split
  · intro r hr hu hd
    simp only [List.mem_map] at hr
    obtain ⟨r0, hr0, hEq⟩ := hr
    by_cases hk : (r0.userId == uid && r0.date == d) = true
    · rw [if_pos hk] at hEq
      subst hEq
      exact ⟨rfl, rfl⟩
    · rw [if_neg hk] at hEq
      subst hEq
      simp only [Bool.and_eq_true, beq_iff_eq] at hk
      exact absurd ⟨hu, hd⟩ hk
  · next h =>
    intro r hr hu hd
    rw [Nat.not_lt, Nat.le_zero, List.length_eq_zero, List.filter_eq_nil_iff] at h
    rcases List.mem_append.mp hr with h1 | h1
    · have := h r h1
      simp only [Bool.and_eq_true, beq_iff_eq] at this
      exact absurd ⟨hu, hd⟩ this
    · simp only [List.mem_singleton] at h1
      subst h1
      exact ⟨rfl, rfl⟩

theorem saveWeeklyScore_key_exists (st : Store) (uid : Nat) (ws we : Int) (a : ℚ) (n : Nat) :
    ∃ r ∈ (saveWeeklyScore st uid ws we a n).weeklyScores,
      r.userId = uid ∧ r.weekStart = ws := by
  unfold saveWeeklyScore
  split
  · next h =>
    rw [List.length_pos] at h
    obtain ⟨r0, hr0⟩ := List.exists_mem_of_ne_nil _ h
    have hm := List.mem_filter.mp hr0
    refine ⟨{ r0 with avgScore := a, totalEntries := n }, ?_, ?_⟩
    · simp only []
      refine List.mem_map.mpr ⟨r0, hm.1, ?_⟩
      rw [if_pos hm.2]
    · have := hm.2
      simp only [Bool.and_eq_true, beq_iff_eq] at this
      exact ⟨this.1, this.2⟩
  · exact ⟨⟨uid, ws, we, a, n⟩, by simp, rfl, rfl⟩

theorem saveWeeklyScore_key_rows (st : Store) (uid : Nat) (ws we : Int) (a : ℚ) (n : Nat) :
    ∀ r ∈ (saveWeeklyScore st uid ws we a n).weeklyScores,
      r.userId = uid → r.weekStart = ws → r.avgScore = a ∧ r.totalEntries = n := by
  unfold saveWeeklyScore
  split
  · intro r hr hu hw
    simp only [List.mem_map] at hr
    obtain ⟨r0, hr0, hEq⟩ := hr
    by_cases hk : (r0.userId == uid && r0.weekStart == ws) = true
    · rw [if_pos hk] at hEq
      subst hEq
      exact ⟨rfl, rfl⟩
    · rw [if_neg hk] at hEq
      subst hEq
      simp only [Bool.and_eq_true, beq_iff_eq] at hk
      exact absurd ⟨hu, hw⟩ hk
  · next h =>
    intro r hr hu hw
    rw [Nat.not_lt, Nat.le_zero, List.length_eq_zero, List.filter_eq_nil_iff] at h
    rcases List.mem_append.mp hr with h1 | h1
    · have := h r h1
      simp only [Bool.and_eq_true, beq_iff_eq] at this
      exact absurd ⟨hu, hw⟩ this
    · simp only [List.mem_singleton] at h1
      subst h1
      exact ⟨rfl, rfl⟩

theorem filter_length_pos_iff (p : α → Bool) (l : List α) :
    0 < (l.filter p).length ↔ ∃ x ∈ l, p x = true := by
  rw [List.length_pos]
  constructor
  · intro hne
    obtain ⟨x, hx⟩ := List.exists_mem_of_ne_nil _ hne
    have := List.mem_filter.mp hx
    exact ⟨x, this.1, this.2⟩
  · rintro ⟨x, hx, hp⟩ hnil
    rw [List.filter_eq_nil_iff] at hnil
    exact hnil x hx hp

/-! ### Claim C2 -/

/-- C2: for every reference date the week-bounds calculator returns a
Monday (`dayOfWeek = 1`) and the Sunday six days later, the reference
date lies within the inclusive window, and a Sunday reference date
(`dayOfWeek = 0`) yields the week that started six days earlier. -/
theorem weekBounds_monday_window (n : Int) :
    dayOfWeek (getWeekBounds n).1 = 1 ∧
    (getWeekBounds n).2 = (getWeekBounds n).1 + 6 ∧
    (getWeekBounds n).1 ≤ n ∧ n ≤ (getWeekBounds n).2 ∧
    (dayOfWeek n = 0 → (getWeekBounds n).1 = n - 6) :=
  weekBounds_spec n

/-- Witness for `weekBounds_monday_window` at day index 3 (1970-01-04,
a Sunday): the Sunday rule instantiates to a week start six days back. -/
theorem weekBounds_monday_window_witness :
    dayOfWeek 3 = 0 ∧ (getWeekBounds 3).1 = 3 - 6 :=
  ⟨by decide, (weekBounds_monday_window 3).2.2.2.2 (by decide)⟩

/-! ### Claim C7 -/

/-- C7: deleting an entry succeeds exactly when an entry with the given
id exists and is owned by the requester; otherwise the route reports
"Entry not found" and the stored entries are unchanged; moreover no
matching row survives a deletion. -/
theorem delete_requires_ownership (st : Store) (uid id : Nat) :
    ((deleteEntryFlow st uid id).1 = DeleteResp.deleted ↔
      ∃ e ∈ st.entries, e.id = id ∧ e.userId = uid) ∧
    ((¬ ∃ e ∈ st.entries, e.id = id ∧ e.userId = uid) →
      (deleteEntryFlow st uid id).1 = DeleteResp.notFound "Entry not found" ∧
      (deleteEntryFlow st uid id).2 = st) ∧
    (∀ e ∈ (deleteEntryFlow st uid id).2.entries, ¬(e.id = id ∧ e.userId = uid)) := by
  have hmem : 0 < (st.entries.filter (fun e => e.id == id && e.userId == uid)).length ↔
      ∃ e ∈ st.entries, e.id = id ∧ e.userId = uid := by
    rw [filter_length_pos_iff]
    constructor
    · rintro ⟨e, he, hp⟩
      simp only [Bool.and_eq_true, beq_iff_eq] at hp
      exact ⟨e, he, hp⟩
    · rintro ⟨e, he, h1, h2⟩
      exact ⟨e, he, by simp [h1, h2]⟩
  simp only [deleteEntryFlow, deleteEntry, decide_eq_true_eq]
  by_cases hc : 0 < (st.entries.filter (fun e => e.id == id && e.userId == uid)).length
  · rw [if_pos hc]
    refine ⟨iff_of_true rfl (hmem.mp hc), ?_, ?_⟩
    · intro hne
      exact absurd (hmem.mp hc) hne
    · intro e he hkey
      have hm := (List.mem_filter.mp he).2
      simp only [Bool.not_eq_true', Bool.and_eq_false_iff, beq_eq_false_iff_ne, ne_eq] at hm
      rcases hm with hm | hm
      · exact hm hkey.1
      · exact hm hkey.2
  · rw [if_neg hc]
    have hself : st.entries.filter (fun e => !(e.id == id && e.userId == uid)) = st.entries := by
      rw [List.filter_eq_self]
      intro e he
      simp only [Bool.not_eq_true']
      by_contra hcon
      rw [Bool.not_eq_false] at hcon
      simp only [Bool.and_eq_true, beq_iff_eq] at hcon
      exact hc (hmem.mpr ⟨e, he, hcon⟩)
    refine ⟨iff_of_false (by simp) (fun hex => hc (hmem.mpr hex)), ?_, ?_⟩
    · intro _
      refine ⟨rfl, ?_⟩
      show { st with entries := st.entries.filter _ } = st
      rw [hself]
    · intro e he hkey
      have hm := (List.mem_filter.mp he).2
      simp only [Bool.not_eq_true', Bool.and_eq_false_iff, beq_eq_false_iff_ne, ne_eq] at hm
      rcases hm with hm | hm
      · exact hm hkey.1
      · exact hm hkey.2

/-- Concrete store for the deletion witness: one entry owned by user 1. -/
def stC7 : Store :=
  { users := [], entries := [⟨5, 1, "Read", "learning", 30, true, none, 0, 0⟩],
    dailyScores := [], weeklyScores := [], chatMessages := [],
    nextUserId := 1, nextEntryId := 6, clock := 1 }

/-- Witness for `delete_requires_ownership`: user 2 cannot delete user
1's entry — the route answers "Entry not found" and the store is
untouched. -/
theorem delete_requires_ownership_witness :
    (deleteEntryFlow stC7 2 5).1 = DeleteResp.notFound "Entry not found" ∧
    (deleteEntryFlow stC7 2 5).2 = stC7 :=
  (delete_requires_ownership stC7 2 5).2.1 (by decide)

/-! ### Claim C9 -/

theorem map_field_update (l : List α) (f : α → α) (g : α → β)
    (h : ∀ x, g (f x) = g x) : (l.map f).map g = l.map g := by
  induction l with
  | nil => rfl
  | cons x xs ih => simp only [List.map_cons, h, ih]

/-- C9: updating an existing `(user, weekStart)` weekly row rewrites only
`avgScore` and `totalEntries`; every row's `weekEnd` (and key, and the
table length) is unchanged, whatever `weekEnd` argument is passed. -/
theorem weekly_update_preserves_weekEnd (st : Store) (uid : Nat) (ws we : Int) (a : ℚ) (n : Nat)
    (h : ∃ r ∈ st.weeklyScores, r.userId = uid ∧ r.weekStart = ws) :
    ((saveWeeklyScore st uid ws we a n).weeklyScores.map (fun r => r.weekEnd) =
      st.weeklyScores.map (fun r => r.weekEnd)) ∧
    ((saveWeeklyScore st uid ws we a n).weeklyScores.map (fun r => (r.userId, r.weekStart)) =
      st.weeklyScores.map (fun r => (r.userId, r.weekStart))) ∧
    ((saveWeeklyScore st uid ws we a n).weeklyScores.length = st.weeklyScores.length) ∧
    (∀ r ∈ (saveWeeklyScore st uid ws we a n).weeklyScores,
      r.userId = uid → r.weekStart = ws → r.avgScore = a ∧ r.totalEntries = n) := by
  have hc : 0 < (st.weeklyScores.filter (fun r => r.userId == uid && r.weekStart == ws)).length := by
    rw [filter_length_pos_iff]
    obtain ⟨r, hr, h1, h2⟩ := h
    exact ⟨r, hr, by simp [h1, h2]⟩
  refine ⟨?_, ?_, ?_, saveWeeklyScore_key_rows st uid ws we a n⟩ <;>
    (unfold saveWeeklyScore; rw [if_pos hc])
  · exact map_field_update _ _ _ (fun x => by split <;> rfl)
  · exact map_field_update _ _ _ (fun x => by split <;> rfl)
  · simp

/-- Concrete store for the weekly-update witness: one weekly row with
weekEnd 6. -/
def stC9 : Store :=
  { users := [], entries := [], dailyScores := [],
    weeklyScores := [⟨1, 0, 6, 80, 3⟩], chatMessages := [],
    nextUserId := 1, nextEntryId := 1, clock := 0 }

/-- Witness for `weekly_update_preserves_weekEnd`: saving with a
different weekEnd argument (99) leaves the stored weekEnd (6) in place. -/
theorem weekly_update_preserves_weekEnd_witness :
    (saveWeeklyScore stC9 1 0 99 50 4).weeklyScores.map (fun r => r.weekEnd) =
      stC9.weeklyScores.map (fun r => r.weekEnd) :=
  (weekly_update_preserves_weekEnd stC9 1 0 99 50 4 ⟨⟨1, 0, 6, 80, 3⟩, by simp [stC9], rfl, rfl⟩).1

/-! ### Claim C3 -/

/-- The upsert key of a daily score row. -/
def dailyKey (r : DailyScoreRow) : Nat × Int := (r.userId, r.date)

/-- The upsert key of a weekly score row. -/
def weeklyKey (r : WeeklyScoreRow) : Nat × Int := (r.userId, r.weekStart)

/-- All rows of `l` have pairwise distinct keys. -/
def UniqueBy (key : α → β) (l : List α) : Prop :=
  l.Pairwise (fun x y => key x ≠ key y)

theorem uniqueBy_map_of_key_preserving (key : α → β) (f : α → α)
    (hf : ∀ x, key (f x) = key x) (l : List α) (h : UniqueBy key l) :
    UniqueBy key (l.map f) := by
  unfold UniqueBy at *
  refine List.Pairwise.map f ?_ h
  intro a b hab
  rw [hf, hf]
  exact hab

theorem uniqueBy_append_singleton (key : α → β) (l : List α) (x : α)
    (h : UniqueBy key l) (hx : ∀ y ∈ l, key y ≠ key x) :
    UniqueBy key (l ++ [x]) := by
  unfold UniqueBy
  rw [List.pairwise_append]
  refine ⟨h, List.pairwise_singleton _ _, ?_⟩
  intro a ha b hb
  simp only [List.mem_singleton] at hb
  subst hb
  exact hx a ha

/-- C3: the daily and weekly saves are true upserts — they preserve the
at-most-one-row-per-key invariants, and when a row for the key already
exists they update it in place (the table length does not grow). -/
theorem upsert_keeps_scores_unique (st : Store) (uid : Nat) (d : Int) (s : ℚ) (i : String)
    (ws we : Int) (a : ℚ) (n : Nat)
    (hd : UniqueBy dailyKey st.dailyScores) (hw : UniqueBy weeklyKey st.weeklyScores) :
    UniqueBy dailyKey (saveDailyScore st uid d s i).dailyScores ∧
    UniqueBy weeklyKey (saveWeeklyScore st uid ws we a n).weeklyScores ∧
    ((∃ r ∈ st.dailyScores, r.userId = uid ∧ r.date = d) →
      (saveDailyScore st uid d s i).dailyScores.length = st.dailyScores.length) ∧
    ((∃ r ∈ st.weeklyScores, r.userId = uid ∧ r.weekStart = ws) →
      (saveWeeklyScore st uid ws we a n).weeklyScores.length = st.weeklyScores.length) := by
  refine ⟨?_, ?_, ?_, ?_⟩
  · unfold saveDailyScore
    split
    · exact uniqueBy_map_of_key_preserving dailyKey _ (fun x => by split <;> rfl) _ hd
    · next hc =>
      apply uniqueBy_append_singleton dailyKey _ _ hd
      intro y hy
      rw [Nat.not_lt, Nat.le_zero, List.length_eq_zero, List.filter_eq_nil_iff] at hc
      have hk := hc y hy
      simp only [Bool.and_eq_true, beq_iff_eq, not_and] at hk
      simp only [dailyKey, ne_eq, Prod.mk.injEq, not_and]
      exact fun h1 h2 => hk h1 h2
  · unfold saveWeeklyScore
    split
    · exact uniqueBy_map_of_key_preserving weeklyKey _ (fun x => by split <;> rfl) _ hw
    · next hc =>
      apply uniqueBy_append_singleton weeklyKey _ _ hw
      intro y hy
      rw [Nat.not_lt, Nat.le_zero, List.length_eq_zero, List.filter_eq_nil_iff] at hc
      have hk := hc y hy
      simp only [Bool.and_eq_true, beq_iff_eq, not_and] at hk
      simp only [weeklyKey, ne_eq, Prod.mk.injEq, not_and]
      exact fun h1 h2 => hk h1 h2
  · intro hex
    have hc : 0 < (st.dailyScores.filter (fun r => r.userId == uid && r.date == d)).length := by
      rw [filter_length_pos_iff]
      obtain ⟨r, hr, h1, h2⟩ := hex
      exact ⟨r, hr, by simp [h1, h2]⟩
    unfold saveDailyScore
    rw [if_pos hc]
    simp
  · intro hex
    have hc : 0 < (st.weeklyScores.filter (fun r => r.userId == uid && r.weekStart == ws)).length := by
      rw [filter_length_pos_iff]
      obtain ⟨r, hr, h1, h2⟩ := hex
      exact ⟨r, hr, by simp [h1, h2]⟩
    unfold saveWeeklyScore
    rw [if_pos hc]
    simp

/-- Concrete store for the upsert witness: one daily row for (1, 0) and
one weekly row for (1, 0). -/
def stC3 : Store :=
  { users := [], entries := [],
    dailyScores := [⟨1, 0, 70, "x"⟩],
    weeklyScores := [⟨1, 0, 6, 70, 1⟩], chatMessages := [],
    nextUserId := 1, nextEntryId := 1, clock := 0 }

/-- Witness for `upsert_keeps_scores_unique`: re-saving the existing
(1, 0) daily and weekly rows keeps uniqueness and does not grow either
table. -/
theorem upsert_keeps_scores_unique_witness :
    UniqueBy dailyKey (saveDailyScore stC3 1 0 90 "y").dailyScores ∧
    (saveDailyScore stC3 1 0 90 "y").dailyScores.length = stC3.dailyScores.length ∧
    (saveWeeklyScore stC3 1 0 6 90 2).weeklyScores.length = stC3.weeklyScores.length := by
  have h := upsert_keeps_scores_unique stC3 1 0 90 "y" 0 6 90 2
    (by simp [UniqueBy, stC3]) (by simp [UniqueBy, stC3])
  exact ⟨h.1, h.2.2.1 ⟨⟨1, 0, 70, "x"⟩, by simp [stC3], rfl, rfl⟩,
    h.2.2.2 ⟨⟨1, 0, 6, 70, 1⟩, by simp [stC3], rfl, rfl⟩⟩

/-! ### Scoring-flow reduction lemmas -/

theorem scoreDailyFlow_run (st : Store) (uid : Nat) (d today : Int) (ai : Option String)
    (hne : getEntriesByDate st uid d ≠ []) :
    scoreDailyFlow st uid (some d) today (some ai) =
      ⟨ScoreResp.ok (scoreFromParsed (parsePipeline (contentOf ai)))
         (insightFromParsed (parsePipeline (contentOf ai))) (some d),
       persistScores st uid d (scoreFromParsed (parsePipeline (contentOf ai)))
         (insightFromParsed (parsePipeline (contentOf ai))),
       true⟩ := by
  unfold scoreDailyFlow
  simp only [Option.getD_some]
  rw [if_neg]
  simp only [List.isEmpty_iff]
  exact hne

theorem persistScores_dailyScores (st : Store) (uid : Nat) (d : Int) (sc : ℚ) (ins : String) :
    (persistScores st uid d sc ins).dailyScores = (saveDailyScore st uid d sc ins).dailyScores := by
  simp only [persistScores]
  split
  · rw [saveWeeklyScore_dailyScores]
  · rfl

theorem persistScores_weekly (st : Store) (uid : Nat) (d : Int) (sc : ℚ) (ins : String) :
    getDailyScores (persistScores st uid d sc ins) uid (getWeekBounds d).1 (getWeekBounds d).2 ≠ [] ∧
    (∃ r ∈ (persistScores st uid d sc ins).weeklyScores,
      r.userId = uid ∧ r.weekStart = (getWeekBounds d).1) ∧
    (∀ r ∈ (persistScores st uid d sc ins).weeklyScores,
      r.userId = uid → r.weekStart = (getWeekBounds d).1 →
      r.avgScore = round1 (sumScores (getDailyScores (persistScores st uid d sc ins) uid
          (getWeekBounds d).1 (getWeekBounds d).2) /
        ((getDailyScores (persistScores st uid d sc ins) uid
          (getWeekBounds d).1 (getWeekBounds d).2).length : ℚ)) ∧
      r.totalEntries = (getDailyScores (persistScores st uid d sc ins) uid
          (getWeekBounds d).1 (getWeekBounds d).2).length) := by
  have hb := weekBounds_spec d
  obtain ⟨r0, hr0, hu0, hd0, _, _⟩ := saveDailyScore_key_exists st uid d sc ins
  have hrmem : r0 ∈ getDailyScores (saveDailyScore st uid d sc ins) uid
      (getWeekBounds d).1 (getWeekBounds d).2 := by
    rw [mem_getDailyScores]
    exact ⟨hr0, hu0, by rw [hd0]; exact hb.2.2.1, by rw [hd0]; exact hb.2.2.2.1⟩
  have hpos : 0 < (getDailyScores (saveDailyScore st uid d sc ins) uid
      (getWeekBounds d).1 (getWeekBounds d).2).length :=
    List.length_pos.mpr (List.ne_nil_of_mem hrmem)
  have hpersist : persistScores st uid d sc ins =
      saveWeeklyScore (saveDailyScore st uid d sc ins) uid (getWeekBounds d).1 (getWeekBounds d).2
        (round1 (sumScores (getDailyScores (saveDailyScore st uid d sc ins) uid
            (getWeekBounds d).1 (getWeekBounds d).2) /
          ((getDailyScores (saveDailyScore st uid d sc ins) uid
            (getWeekBounds d).1 (getWeekBounds d).2).length : ℚ)))
        (getDailyScores (saveDailyScore st uid d sc ins) uid
            (getWeekBounds d).1 (getWeekBounds d).2).length := by
    unfold persistScores
    rw [if_pos hpos]
  rw [hpersist, getDailyScores_saveWeeklyScore]
  exact ⟨List.ne_nil_of_mem hrmem,
    saveWeeklyScore_key_exists _ uid _ _ _ _,
    saveWeeklyScore_key_rows _ uid _ _ _ _⟩

/-! ### Claim C6 -/

/-- C6: with no logged entries on the requested date, the scoring route
returns score 0 with the fixed prompt-to-log message, makes no external
generation call, and leaves the store untouched. -/
theorem no_entries_short_circuit (st : Store) (uid : Nat) (dateReq : Option Int) (today : Int)
    (aiResult : Option (Option String))
    (h : getEntriesByDate st uid (dateReq.getD today) = []) :
    scoreDailyFlow st uid dateReq today aiResult =
      ⟨ScoreResp.ok 0 noEntriesInsight none, st, false⟩ := by
  unfold scoreDailyFlow
  rw [if_pos]
  rw [List.isEmpty_iff]
  exact h

/-- Empty store for the C6 witness. -/
def stC6 : Store :=
  { users := [], entries := [], dailyScores := [], weeklyScores := [], chatMessages := [],
    nextUserId := 1, nextEntryId := 1, clock := 0 }

/-- Witness for `no_entries_short_circuit` on an empty store. -/
theorem no_entries_short_circuit_witness :
    scoreDailyFlow stC6 1 (some 0) 0 (some (some "x")) =
      ⟨ScoreResp.ok 0 noEntriesInsight none, stC6, false⟩ :=
  no_entries_short_circuit stC6 1 (some 0) 0 (some (some "x")) (by decide)

/-! ### Claim C1 -/

/-- C1: after the scoring route persists a daily score, the weekly
aggregate row for the enclosing Monday–Sunday window carries the mean of
all of the user's daily scores in that window rounded to one decimal
place, and their count. -/
theorem scoring_recomputes_weekly_mean (st : Store) (uid : Nat) (d today : Int) (ai : Option String)
    (hne : getEntriesByDate st uid d ≠ []) :
    getDailyScores (scoreDailyFlow st uid (some d) today (some ai)).store uid
        (getWeekBounds d).1 (getWeekBounds d).2 ≠ [] ∧
    (∃ r ∈ (scoreDailyFlow st uid (some d) today (some ai)).store.weeklyScores,
      r.userId = uid ∧ r.weekStart = (getWeekBounds d).1) ∧
    (∀ r ∈ (scoreDailyFlow st uid (some d) today (some ai)).store.weeklyScores,
      r.userId = uid → r.weekStart = (getWeekBounds d).1 →
      r.avgScore = round1 (sumScores (getDailyScores (scoreDailyFlow st uid (some d) today (some ai)).store uid
          (getWeekBounds d).1 (getWeekBounds d).2) /
        ((getDailyScores (scoreDailyFlow st uid (some d) today (some ai)).store uid
          (getWeekBounds d).1 (getWeekBounds d).2).length : ℚ)) ∧
      r.totalEntries = (getDailyScores (scoreDailyFlow st uid (some d) today (some ai)).store uid
          (getWeekBounds d).1 (getWeekBounds d).2).length) := by
  rw [scoreDailyFlow_run st uid d today ai hne]
  exact persistScores_weekly st uid d _ _

/-- Store for the C1 witness: one entry for user 1 on day 2 and one
prior daily score (80) on day 0 of the same Monday–Sunday window. -/
def stC1 : Store :=
  { users := [], entries := [⟨1, 1, "Work", "work", 60, true, none, 2, 0⟩],
    dailyScores := [⟨1, 0, 80, "prev"⟩], weeklyScores := [], chatMessages := [],
    nextUserId := 2, nextEntryId := 2, clock := 1 }

/-- The generation reply used by the C1 witness. -/
def aiC1 : String := "\x7b\"score\": 90, \"insight\": \"Nice\"\x7d"

/-- Witness for `scoring_recomputes_weekly_mean`: scoring day 2 with
reply score 90 next to the stored 80 of day 0 yields one weekly row
(user 1, week −3..3) with average 85 and count 2. -/
theorem scoring_recomputes_weekly_mean_witness :
    getDailyScores (scoreDailyFlow stC1 1 (some 2) 2 (some (some aiC1))).store 1
        (getWeekBounds 2).1 (getWeekBounds 2).2 ≠ [] ∧
    (scoreDailyFlow stC1 1 (some 2) 2 (some (some aiC1))).store.weeklyScores.map
        (fun r => (r.userId, r.weekStart, r.weekEnd, r.avgScore, r.totalEntries)) =
      [(1, -3, 3, (85 : ℚ), 2)] :=
  ⟨(scoring_recomputes_weekly_mean stC1 1 2 2 (some aiC1) (by decide)).1,
   by with_unfolding_all decide⟩

/-! ### Claim C4 -/

/-- Store for the C4 theorems: one entry for user 1 on day 2. -/
def stC4 : Store :=
  { users := [], entries := [⟨1, 1, "Work", "work", 60, true, none, 2, 0⟩],
    dailyScores := [], weeklyScores := [], chatMessages := [],
    nextUserId := 2, nextEntryId := 2, clock := 1 }

/-- A generation reply whose JSON carries the in-range numeric score 0. -/
def aiZeroScore : String := "\x7b\"score\": 0, \"insight\": \"slow day\"\x7d"

/-- Counterexample to C4 as stated: the reply parses to the numeric
score 0.  0 lies in [0,100], so per the claim it should persist
unchanged, but `Number(parsed.score) || 50` treats 0 as falsy and the
route persists 50. -/
theorem zero_score_persists_as_fifty :
    jsToNumber (jGet (parsePipeline (contentOf (some aiZeroScore))) "score") = some 0 ∧
    (scoreDailyFlow stC4 1 (some 2) 2 (some (some aiZeroScore))).store.dailyScores.map
        (fun r => (r.userId, r.date, r.score)) = [(1, 2, (50 : ℚ))] ∧
    (scoreDailyFlow stC4 1 (some 2) 2 (some (some aiZeroScore))).resp =
      ScoreResp.ok 50 "slow day" (some 2) := by
  refine ⟨?_, ?_, ?_⟩ <;> with_unfolding_all decide

/-- C4 amended: the extracted score is clamped into [0,100] before
persisting — a negative parsed score persists as 0, one above 100 as
100, and an in-range nonzero one unchanged — but a parsed score that is
exactly 0 (like a non-numeric or missing one) is falsy and defaults to
50; the route persists exactly this extracted value for the (user, date)
daily row. -/
theorem clamp_with_falsy_zero_default (q : ℚ) (st : Store) (uid : Nat) (d today : Int)
    (c : String) (hne : getEntriesByDate st uid d ≠ []) :
    (q < 0 → scoreFromParsed (JValue.obj [("score", JValue.num q)]) = 0) ∧
    (100 < q → scoreFromParsed (JValue.obj [("score", JValue.num q)]) = 100) ∧
    (0 < q → q ≤ 100 → scoreFromParsed (JValue.obj [("score", JValue.num q)]) = q) ∧
    scoreFromParsed (JValue.obj [("score", JValue.num 0)]) = 50 ∧
    scoreFromParsed (JValue.obj []) = 50 ∧
    scoreFromParsed (JValue.obj [("score", JValue.str "not a number")]) = 50 ∧
    (∀ r ∈ (scoreDailyFlow st uid (some d) today (some (some c))).store.dailyScores,
      r.userId = uid → r.date = d →
      r.score = scoreFromParsed (parsePipeline (contentOf (some c))) ∧
      r.aiInsight = insightFromParsed (parsePipeline (contentOf (some c)))) := by
  have hval : scoreFromParsed (JValue.obj [("score", JValue.num q)]) =
      min 100 (max 0 (if q = 0 then 50 else q)) := by
    with_unfolding_all rfl
  refine ⟨?_, ?_, ?_, ?_, ?_, ?_, ?_⟩
  · intro h
    rw [hval, if_neg (ne_of_lt h), max_eq_left h.le,
      min_eq_right (by norm_num : (0:ℚ) ≤ 100)]
  · intro h
    have h0 : (0:ℚ) < q := lt_trans (by norm_num) h
    rw [hval, if_neg (ne_of_gt h0), max_eq_right h0.le, min_eq_left h.le]
  · intro h1 h2
    rw [hval, if_neg (ne_of_gt h1), max_eq_right h1.le, min_eq_right h2]
  · with_unfolding_all decide
  · with_unfolding_all decide
  · with_unfolding_all decide
  · intro r hr hu hd2
    rw [scoreDailyFlow_run st uid d today (some c) hne] at hr
    dsimp only at hr
    rw [persistScores_dailyScores] at hr
    exact saveDailyScore_key_rows st uid d _ _ r hr hu hd2

/-- Witness for `clamp_with_falsy_zero_default` at scores −3, 250 and
42, and the persisted row at the concrete store. -/
theorem clamp_with_falsy_zero_default_witness :
    scoreFromParsed (JValue.obj [("score", JValue.num (-3))]) = 0 ∧
    scoreFromParsed (JValue.obj [("score", JValue.num 250)]) = 100 ∧
    scoreFromParsed (JValue.obj [("score", JValue.num 42)]) = 42 :=
  ⟨(clamp_with_falsy_zero_default (-3) stC4 1 2 2 "x" (by decide)).1 (by norm_num),
   (clamp_with_falsy_zero_default 250 stC4 1 2 2 "x" (by decide)).2.1 (by norm_num),
   (clamp_with_falsy_zero_default 42 stC4 1 2 2 "x" (by decide)).2.2.1 (by norm_num) (by norm_num)⟩

/-! ### Claim C5 -/

/-- The first brace-delimited JSON object of the C5 counterexample. -/
def c5first : String := "\x7b\"score\": 90, \"insight\": \"Great\"\x7d"

/-- A reply holding two JSON objects: the greedy regex span runs from
the first brace of the first object to the last brace of the second. -/
def c5two : String := c5first ++ " and \x7b\"note\": 1\x7d"

/-- Store for the C5 theorems: one entry for user 1 on day 2. -/
def stC5 : Store :=
  { users := [], entries := [⟨1, 1, "Plan", "work", 45, true, none, 2, 0⟩],
    dailyScores := [], weeklyScores := [], chatMessages := [],
    nextUserId := 2, nextEntryId := 2, clock := 1 }

/-- Counterexample to C5 as stated: the first brace-delimited JSON
object of `c5two` parses on its own with score 90 and insight "Great",
but the route's greedy span covers both objects, fails to parse, and the
request falls back to score 50 with the whole reply as the insight —
the first object's score and insight are not used. -/
theorem greedy_span_skips_first_object :
    scoreFromParsed (parsePipeline c5first) = 90 ∧
    insightFromParsed (parsePipeline c5first) = "Great" ∧
    extractSpan c5two = some c5two ∧
    jsonParse (spanTarget c5two) = none ∧
    scoreFromParsed (parsePipeline c5two) = 50 ∧
    insightFromParsed (parsePipeline c5two) = c5two ∧
    (scoreDailyFlow stC5 1 (some 2) 2 (some (some c5two))).resp =
      ScoreResp.ok 50 c5two (some 2) := by
  refine ⟨?_, ?_, ?_, ?_, ?_, ?_, ?_⟩ <;> first
    | with_unfolding_all decide
    | with_unfolding_all rfl

/-- C5 amended: the parser takes the greedy span from the first opening
brace to the last closing brace (falling back to the whole content when
there is no such span) and parses that with `JSON.parse`; when the parse
succeeds the route responds with the parsed object's extracted score and
insight, and when it fails the request still succeeds with score 50 and
the raw reply content as the insight. -/
theorem span_parse_with_fallback (st : Store) (uid : Nat) (d today : Int) (c : String)
    (hne : getEntriesByDate st uid d ≠ []) (hc : c ≠ "") :
    (jsonParse (spanTarget c) = none →
      (scoreDailyFlow st uid (some d) today (some (some c))).resp =
        ScoreResp.ok 50 c (some d)) ∧
    (∀ v, jsonParse (spanTarget c) = some v →
      (scoreDailyFlow st uid (some d) today (some (some c))).resp =
        ScoreResp.ok (scoreFromParsed v) (insightFromParsed v) (some d)) := by
  have hcontent : contentOf (some c) = c := by simp [contentOf, hc]
  have hresp : (scoreDailyFlow st uid (some d) today (some (some c))).resp =
      ScoreResp.ok (scoreFromParsed (parsePipeline c)) (insightFromParsed (parsePipeline c))
        (some d) := by
    rw [scoreDailyFlow_run st uid d today (some c) hne, hcontent]
  constructor
  · intro hparse
    have hpp : parsePipeline c = fallbackParsed c := by
      unfold parsePipeline
      rw [hparse]
    have h50 : scoreFromParsed (fallbackParsed c) = 50 := by with_unfolding_all rfl
    have hins : insightFromParsed (fallbackParsed c) = c := by
      have hj : jGet (fallbackParsed c) "insight" = some (JValue.str c) := rfl
      have ht : jTruthy (JValue.str c) = true := by simp [jTruthy, hc]
      simp [insightFromParsed, hj, ht, jsToString]
    rw [hresp, hpp, h50, hins]
  · intro v hparse
    have hpp : parsePipeline c = v := by
      unfold parsePipeline
      rw [hparse]
    rw [hresp, hpp]

/-- Witness for `span_parse_with_fallback`: a reply with no JSON at all
falls back to score 50 with the raw reply as insight, and the request
succeeds. -/
theorem span_parse_with_fallback_witness :
    (scoreDailyFlow stC5 1 (some 2) 2 (some (some "no json here"))).resp =
      ScoreResp.ok 50 "no json here" (some 2) :=
  (span_parse_with_fallback stC5 1 2 2 "no json here" (by decide) (by decide)).1
    (by with_unfolding_all rfl)

/-! ### Claim C8 -/

theorem chatFlow_context (st : Store) (uid : Nat) (msg : String) (today : Int)
    (chunks : Option (List String)) (hmsg : msg ≠ "") :
    (chatFlow st uid (some msg) today chunks).context =
      ⟨"system", chatSystemPrompt (getUserById st uid)
        (entriesSummaryOf (getEntriesByDateRange (saveChatMessage st uid "user" msg) uid
          (getWeekBounds today).1 (getWeekBounds today).2))
        (scoresSummaryOf (getDailyScores (saveChatMessage st uid "user" msg) uid
          (getWeekBounds today).1 (getWeekBounds today).2))⟩ ::
      (((getChatMessages st uid).drop ((getChatMessages st uid).length - 20)).map
        (fun m => ⟨m.role, m.content⟩) ++ [⟨"user", msg⟩]) := by
  unfold chatFlow
  dsimp only
  rw [if_neg hmsg]
  cases chunks <;> rfl

theorem entriesSummaryOf_take20 (l : List EntryRow) :
    entriesSummaryOf l = entriesSummaryOf (l.take 20) := by
  unfold entriesSummaryOf
  rcases l with _ | ⟨x, xs⟩
  · rfl
  · rw [if_pos (by simp), if_pos (by simp), List.take_take]
    norm_num

/-- C8: the generation context of a chat send is one system message
(embedding the profile and the weekly summaries, the activity summary
drawing on at most the first 20 of the most-recent-first entries),
followed by at most the last 20 turns of the prior history, followed by
the new user message; with 25 prior turns exactly the most recent 20 are
included and the context has 22 messages. -/
theorem chat_context_window (st : Store) (uid : Nat) (msg : String) (today : Int)
    (chunks : Option (List String)) (hmsg : msg ≠ "") :
    (chatFlow st uid (some msg) today chunks).context.length =
      min (getChatMessages st uid).length 20 + 2 ∧
    ((chatFlow st uid (some msg) today chunks).context.take 1).map (fun m => m.role) =
      ["system"] ∧
    (chatFlow st uid (some msg) today chunks).context.getLast? = some ⟨"user", msg⟩ ∧
    (chatFlow st uid (some msg) today chunks).context.drop 1 =
      ((getChatMessages st uid).drop ((getChatMessages st uid).length - 20)).map
        (fun m => ⟨m.role, m.content⟩) ++ [⟨"user", msg⟩] ∧
    entriesSummaryOf (getEntriesByDateRange (saveChatMessage st uid "user" msg) uid
        (getWeekBounds today).1 (getWeekBounds today).2) =
      entriesSummaryOf ((getEntriesByDateRange (saveChatMessage st uid "user" msg) uid
        (getWeekBounds today).1 (getWeekBounds today).2).take 20) ∧
    ((getChatMessages st uid).length = 25 →
      (chatFlow st uid (some msg) today chunks).context.drop 1 =
        ((getChatMessages st uid).drop 5).map (fun m => ⟨m.role, m.content⟩) ++
          [⟨"user", msg⟩] ∧
      (chatFlow st uid (some msg) today chunks).context.length = 22) := by
  rw [chatFlow_context st uid msg today chunks hmsg]
  refine ⟨?_, rfl, ?_, rfl, entriesSummaryOf_take20 _, ?_⟩
  · simp only [List.length_cons, List.length_append, List.length_map, List.length_drop,
      List.length_nil]
    omega
  · rw [← List.cons_append, List.getLast?_concat]
  · intro h25
    rw [h25]
    constructor
    · norm_num
    · simp only [List.length_cons, List.length_append, List.length_map, List.length_drop,
        List.length_nil, h25]

/-- Store for the chat witness: 25 prior chat turns for user 1. -/
def stC8 : Store :=
  { users := [], entries := [], dailyScores := [], weeklyScores := [],
    chatMessages := (List.range 25).map (fun i => ⟨1, "user", "m", i⟩),
    nextUserId := 1, nextEntryId := 1, clock := 25 }

/-- Witness for `chat_context_window` with 25 prior turns: the context
has 22 messages and its middle part is exactly the most recent 20 turns. -/
theorem chat_context_window_witness :
    (chatFlow stC8 1 (some "hi") 0 (some ["ok"])).context.length = 22 ∧
    (chatFlow stC8 1 (some "hi") 0 (some ["ok"])).context.drop 1 =
      ((getChatMessages stC8 1).drop 5).map (fun m => ⟨m.role, m.content⟩) ++
        [⟨"user", "hi"⟩] := by
  have h := (chat_context_window stC8 1 "hi" 0 (some ["ok"]) (by decide)).2.2.2.2.2 (by decide)
  exact ⟨h.2, h.1⟩

/-! ### Claim C10 -/

theorem safeUserJson_keys (u : UserRow) :
    (safeUserJson u).map Prod.fst =
      ["id", "username", "email", "fullName", "occupation", "goals", "createdAt"] := by
  with_unfolding_all rfl

theorem noPasswordKey_safe (s : Nat) (u : UserRow) : noPasswordKey ⟨s, safeUserJson u⟩ := by
  unfold noPasswordKey
  rw [show (HttpResp.mk s (safeUserJson u)).body = safeUserJson u from rfl, safeUserJson_keys]
  decide

theorem noPasswordKey_msg (s : Nat) (m : String) :
    noPasswordKey ⟨s, [("message", JValue.str m)]⟩ := by
  unfold noPasswordKey
  dsimp only [List.map]
  decide

theorem noPasswordKey_invalid :
    noPasswordKey ⟨400, [("message", JValue.str "Invalid input"), ("errors", JValue.obj [])]⟩ := by
  unfold noPasswordKey
  dsimp only [List.map]
  decide

/-- C10: no response of register, login, or session-check carries a
`password` key; a successful login body is exactly the user row with the
password field removed. -/
theorem auth_responses_omit_password (hash : String → String) (check : String → String → Bool)
    (st : Store) (rb : Option (String × String × String × String × String × String))
    (un pw : String) (sid : Option Nat) :
    noPasswordKey (registerFlow hash st rb).1 ∧
    noPasswordKey (loginFlow check st (some (un, pw))) ∧
    noPasswordKey (meFlow st sid) ∧
    (∀ u, getUserByUsername st un = some u → check pw u.password = true →
      loginFlow check st (some (un, pw)) = ⟨200, safeUserJson u⟩) := by
  refine ⟨?_, ?_, ?_, ?_⟩
  · unfold registerFlow
    rcases rb with _ | ⟨username, email, password, fullName, occupation, goals⟩
    · dsimp only
      exact noPasswordKey_invalid
    · dsimp only
      cases hu : getUserByUsername st username with
      | some u =>
        dsimp only
        exact noPasswordKey_msg _ _
      | none =>
        dsimp only
        by_cases he : (st.users.any fun u => u.email == email) = true
        · rw [if_pos he]
          exact noPasswordKey_msg _ _
        · rw [if_neg he]
          exact noPasswordKey_safe _ _
  · unfold loginFlow
    dsimp only
    cases hu : getUserByUsername st un with
    | none =>
      dsimp only
      exact noPasswordKey_msg _ _
    | some u =>
      dsimp only
      by_cases hch : check pw u.password = true
      · rw [if_pos hch]
        exact noPasswordKey_safe _ _
      · rw [if_neg hch]
        exact noPasswordKey_msg _ _
  · unfold meFlow
    rcases sid with _ | uid
    · dsimp only
      exact noPasswordKey_msg _ _
    · dsimp only
      cases hu : getUserById st uid with
      | none =>
        dsimp only
        exact noPasswordKey_msg _ _
      | some u =>
        dsimp only
        exact noPasswordKey_safe _ _
  · intro u hu hch
    unfold loginFlow
    dsimp only
    rw [hu]
    dsimp only
    rw [if_pos hch]

/-- Hash and comparator for the auth witness. -/
def hashC10 : String → String := fun s => "h:" ++ s

/-- bcrypt-compare model for the auth witness. -/
def checkC10 : String → String → Bool := fun pw h => h == "h:" ++ pw

/-- User row for the auth witness. -/
def uC10 : UserRow := ⟨1, "alice", "a@x", "h:pw", "Alice", "Dev", "Ship", 0⟩

/-- Store for the auth witness. -/
def stC10 : Store :=
  { users := [uC10], entries := [], dailyScores := [], weeklyScores := [], chatMessages := [],
    nextUserId := 2, nextEntryId := 1, clock := 1 }

/-- Witness for `auth_responses_omit_password`: a successful login at a
concrete store returns the password-stripped user row. -/
theorem auth_responses_omit_password_witness :
    noPasswordKey (loginFlow checkC10 stC10 (some ("alice", "pw"))) ∧
    loginFlow checkC10 stC10 (some ("alice", "pw")) = ⟨200, safeUserJson uC10⟩ := by
  have h := auth_responses_omit_password hashC10 checkC10 stC10 none "alice" "pw" (some 1)
  exact ⟨h.2.1, h.2.2.2 uC10 (by with_unfolding_all rfl) (by with_unfolding_all rfl)⟩
